import Mathlib

/-!
Shallow embedding of `src/split_pdf.py`, a Streamlit tool that splits an
uploaded PDF into fixed-size page-chunk PDFs or one JPG image per page and
zips the generated files for download.

Modelling choices:
* A PDF page (and a rendered image) is an abstract value of a type `α`;
  `reader.pages` is a `List α` and `total_pages` its length in the handler.
* Filesystem paths are lists of components (`Path`); `os.path.join` is list
  append and `os.path.basename` is the last component.
* Python list indexing `xs[i]` is modelled with `List.get?`; the outcome
  types have a dedicated constructor for the `IndexError` path (the
  request handler's `try` turns such an exception into the catch-all
  failure report).
* `st.error` and `st.warning` calls are recorded as `Report` values.
* Python strings are Lean `String`s; `str.split('\n')` and `str.strip()`
  are modelled over the underlying character list.
* The `pdf2image` import guard is the boolean `render_available`, and the
  image list returned by `convert_from_path` is an explicit input.
-/

namespace SplitPdf

/-- Filesystem path, as a list of components; `os.path.join dir name` is
`dir ++ [name]`. -/
abbrev Path : Type := List String

/-- Python `os.path.basename`: the last path component. -/
def basename (p : Path) : String := p.getLastD ""

/-- Exact ceiling division: the value of Python `math.ceil(a / b)` for
nonnegative `a` and positive `b` (line 126 computes `num_expected_files`
this way). -/
def ceilDiv (a b : Nat) : Nat := (a + b - 1) / b

/-- Python `range(start, stop, step)` for a positive `step` (the handler
guarantees `pages_per_split ≥ 1`): the `k`-th element is `start + k * step`
and there are `ceil((stop - start) / step)` elements. -/
def pyRange (start stop step : Nat) : List Nat :=
  (List.range (ceilDiv (stop - start) step)).map (fun k => start + k * step)

/-- One output file written by `split_to_pdf`: its path and the source
pages it contains, in order. -/
structure PdfUnit (α : Type) where
  path : Path
  pages : List α
deriving Repr, DecidableEq

/-- Outcome of `split_to_pdf`: either the returned `generated_files`, or an
`IndexError` escaping after some files were already written. -/
inductive SplitOutcome (α : Type) where
  | done (generated_files : List (PdfUnit α)) : SplitOutcome α
  | indexError (written_so_far : List (PdfUnit α)) : SplitOutcome α
deriving Repr, DecidableEq

/-- The inner page loop of `split_to_pdf` (lines 30–31): reads
`reader.pages[page_num]` for each listed page number, failing like Python
at the first out-of-range index. -/
def getPages {α : Type} (reader_pages : List α) : List Nat → Option (List α)
  | [] => some []
  | page_num :: rest =>
    match reader_pages.get? page_num with
    | none => none
    | some page =>
      match getPages reader_pages rest with
      | none => none
      | some pages => some (page :: pages)

/-- The outer loop of `split_to_pdf` (lines 25–41) over the chunk start
indices, carrying `file_index` and the accumulated `generated_files`.
A failed page read aborts before the unit's file is written; a failed
`output_filenames[file_index]` read aborts likewise. -/
def splitWrite {α : Type} (reader_pages : List α) (output_filenames : List String)
    (pages_per_split total_pages : Nat) (output_dir : Path) :
    List Nat → Nat → List (PdfUnit α) → SplitOutcome α
  | [], _, generated_files => .done generated_files
  | i :: rest, file_index, generated_files =>
    let end_page := min (i + pages_per_split) total_pages
    match getPages reader_pages (List.range' i (end_page - i)) with
    | none => .indexError generated_files
    | some pages =>
      match output_filenames.get? file_index with
      | none => .indexError generated_files
      | some name =>
        splitWrite reader_pages output_filenames pages_per_split total_pages output_dir
          rest (file_index + 1)
          (generated_files ++ [{ path := output_dir ++ [name ++ ".pdf"], pages := pages }])

/-- The function `split_to_pdf` (lines 21–42). -/
def split_to_pdf {α : Type} (reader_pages : List α) (total_pages pages_per_split : Nat)
    (output_filenames : List String) (output_dir : Path) : SplitOutcome α :=
  splitWrite reader_pages output_filenames pages_per_split total_pages output_dir
    (pyRange 0 total_pages pages_per_split) 0 []

/-- Pure description of the files `split_to_pdf` writes when no index is
out of range; used to state and prove the loop lemmas. -/
def splitPure {α : Type} (reader_pages : List α) (output_filenames : List String)
    (pages_per_split total_pages : Nat) (output_dir : Path) :
    List Nat → Nat → List (PdfUnit α)
  | [], _ => []
  | i :: rest, file_index =>
    { path := output_dir ++ [output_filenames.getD file_index "" ++ ".pdf"],
      pages := (reader_pages.drop i).take (min (i + pages_per_split) total_pages - i) }
      :: splitPure reader_pages output_filenames pages_per_split total_pages output_dir
          rest (file_index + 1)

/-- Outcome of `convert_to_jpg`: the import-guard early return, a normal
return of `generated_files` (with the page-count warning flag), or an
`IndexError` escaping after some files were already written. -/
inductive JpgOutcome (α : Type) where
  | unavailable : JpgOutcome α
  | done (warned : Bool) (generated_files : List (Path × α)) : JpgOutcome α
  | indexError (warned : Bool) (written_so_far : List (Path × α)) : JpgOutcome α
deriving Repr, DecidableEq

/-- What the Python call returns to its caller: `some files` on a normal
return (`[]` when the renderer is unavailable), `none` when the loop
escapes with `IndexError`. -/
def JpgOutcome.returnedFiles {α : Type} : JpgOutcome α → Option (List (Path × α))
  | .unavailable => some []
  | .done _ generated_files => some generated_files
  | .indexError _ _ => none

/-- The write loop of `convert_to_jpg` (lines 56–61) over the listed page
indices `i`; `images[i].save` raises `IndexError` when `i` is out of range
of the rendered images, while `output_filenames[i]` is always in range for
the indices the caller passes. -/
def jpgWrite {α : Type} (images : List α) (output_filenames : List String)
    (output_dir : Path) (warned : Bool) :
    List Nat → List (Path × α) → JpgOutcome α
  | [], generated_files => .done warned generated_files
  | i :: rest, generated_files =>
    let output_path := output_dir ++ [output_filenames.getD i "" ++ ".jpg"]
    match images.get? i with
    | none => .indexError warned generated_files
    | some image =>
      jpgWrite images output_filenames output_dir warned rest
        (generated_files ++ [(output_path, image)])

/-- The function `convert_to_jpg` (lines 44–62); `render_available` models
whether the `pdf2image` import succeeded, `images` the list returned by
`convert_from_path(pdf_path, dpi=200)`. -/
def convert_to_jpg {α : Type} (render_available : Bool) (images : List α)
    (total_pages : Nat) (output_filenames : List String) (output_dir : Path) :
    JpgOutcome α :=
  match render_available with
  | false => .unavailable
  | true =>
    let warned := decide (images.length ≠ total_pages)
    jpgWrite images output_filenames output_dir warned
      (List.range (min total_pages output_filenames.length)) []

/-- The characters Python `str.strip()` removes (ASCII whitespace). -/
def pyIsSpace (c : Char) : Bool :=
  c == ' ' || c == '\t' || c == '\n' || c == '\r' || c == Char.ofNat 11 || c == Char.ofNat 12

/-- Line-break splitting of a character list, keeping empty pieces, as
Python `text.split('\n')` does. -/
def splitLinesAux : List Char → List (List Char)
  | [] => [[]]
  | c :: rest =>
    let r := splitLinesAux rest
    if c = '\n' then [] :: r
    else
      match r with
      | [] => [[c]]
      | line :: others => (c :: line) :: others

/-- Python `custom_names_text.split('\n')`. -/
def pySplitLines (s : String) : List String :=
  (splitLinesAux s.data).map String.mk

/-- Python `str.strip()`: drop leading and trailing whitespace. -/
def pyStrip (s : String) : String :=
  String.mk (((s.data.dropWhile pyIsSpace).reverse.dropWhile pyIsSpace).reverse)

/-- Line 104: `[name.strip() for name in custom_names_text.split('\n') if name.strip()]`. -/
def parse_names (custom_names_text : String) : List String :=
  ((pySplitLines custom_names_text).map pyStrip).filter (fun name => name ≠ "")

/-- Modelled from the spec's words, for comparison with `parse_names`: the
name list as the spec describes it — "parsed from free-text input split on
line breaks with blank lines discarded" — keeping the remaining lines
themselves (a blank line being a whitespace-only one). -/
def parse_names_spec_words (text : String) : List String :=
  (pySplitLines text).filter (fun line => pyStrip line ≠ "")

/-- The `st.error` / `st.warning` reports the handler can show. -/
inductive Report where
  | emptyNames : Report
  | nameCountMismatch (expected actual : Nat) : Report
  | renderingUnavailable : Report
  | pageCountWarning : Report
  | unexpectedFailure : Report
deriving Repr, DecidableEq

/-- The sidebar's output-format radio button. -/
inductive OutputFormat where
  | pdf : OutputFormat
  | jpg : OutputFormat
deriving Repr, DecidableEq

/-- Lines 87–91: `pages_per_split` is the sidebar number input for `pdf`
output and is fixed to `1` for `jpg` output. -/
def effectivePps (output_format : OutputFormat) (pps_input : Nat) : Nat :=
  match output_format with
  | .pdf => pps_input
  | .jpg => 1

/-- Observable outcome of one button-press request: the error/warning
reports shown, the output files written (the temp copy of the upload is
not an output file), and the zip archive — as (member name, source path)
pairs — if one was created. -/
structure RunResult where
  reports : List Report
  written : List Path
  archive : Option (List (String × Path))
deriving Repr, DecidableEq

/-- The zip loop (lines 147–149): each generated file is appended to the
archive under its base name. -/
def packZip (generated_files : List Path) : List (String × Path) :=
  generated_files.foldl (fun zipf file => zipf ++ [(basename file, file)]) []

/-- Lines 144–160: the archive is built and offered only when
`generated_files` is non-empty; an empty list silently skips packaging. -/
def packStage (generated_files : List Path) : RunResult :=
  if generated_files.isEmpty then
    { reports := [], written := generated_files, archive := none }
  else
    { reports := [], written := generated_files, archive := some (packZip generated_files) }

/-- The button handler (lines 107–162) after name parsing, over an opened
document `reader_pages` (so `total_pages = len(reader.pages)`, line 122). -/
def handle_run {α : Type} (output_format : OutputFormat) (reader_pages : List α)
    (pps_input : Nat) (output_filenames : List String) (render_available : Bool)
    (render_images : List α) (temp_dir : Path) : RunResult :=
  if output_filenames.isEmpty then
    { reports := [.emptyNames], written := [], archive := none }
  else
    let total_pages := reader_pages.length
    let pages_per_split := effectivePps output_format pps_input
    let num_expected_files := ceilDiv total_pages pages_per_split
    if num_expected_files ≠ output_filenames.length then
      { reports := [.nameCountMismatch num_expected_files output_filenames.length],
        written := [], archive := none }
    else
      let output_dir := temp_dir ++ ["output"]
      match output_format with
      | .pdf =>
        match split_to_pdf reader_pages total_pages pages_per_split output_filenames
            output_dir with
        | .done units => packStage (units.map PdfUnit.path)
        | .indexError written_so_far =>
          { reports := [.unexpectedFailure], written := written_so_far.map PdfUnit.path,
            archive := none }
      | .jpg =>
        match convert_to_jpg render_available render_images total_pages output_filenames
            output_dir with
        | .unavailable =>
          { reports := [.renderingUnavailable], written := [], archive := none }
        | .done warned files =>
          let packed := packStage (files.map Prod.fst)
          { packed with
            reports := (if warned then [.pageCountWarning] else []) ++ packed.reports }
        | .indexError warned written_so_far =>
          { reports := (if warned then [.pageCountWarning] else []) ++ [.unexpectedFailure],
            written := written_so_far.map Prod.fst, archive := none }

/-- The whole request: line 104's name parsing followed by the button
handler. -/
def handle {α : Type} (output_format : OutputFormat) (reader_pages : List α)
    (pps_input : Nat) (custom_names_text : String) (render_available : Bool)
    (render_images : List α) (temp_dir : Path) : RunResult :=
  handle_run output_format reader_pages pps_input (parse_names custom_names_text)
    render_available render_images temp_dir

/-! ## Arithmetic facts about `ceilDiv` -/

/-- Upper bound characterization of ceiling division. -/
theorem ceilDiv_le {a b k : Nat} (hb : 0 < b) (h : a ≤ k * b) : ceilDiv a b ≤ k := by
  have h2 : a + b - 1 < (k + 1) * b := by
    have : (k + 1) * b = k * b + b := by ring
    omega
  have h3 : (a + b - 1) / b < k + 1 := (Nat.div_lt_iff_lt_mul hb).mpr h2
  unfold ceilDiv
  omega

/-- Indices below the ceiling quotient give chunk starts below `a`. -/
theorem lt_of_lt_ceilDiv {a b k : Nat} (hb : 0 < b) (hk : k < ceilDiv a b) : k * b < a := by
  by_contra h
  push_neg at h
  exact absurd (ceilDiv_le hb h) (by omega)

/-- Peeling one chunk off a ceiling division. -/
theorem ceilDiv_step {n b : Nat} (hb : 0 < b) (hn : 0 < n) :
    ceilDiv n b = ceilDiv (n - b) b + 1 := by
  unfold ceilDiv
  rcases le_or_lt b n with h | h
  · have h1 : n + b - 1 = (n - b + b - 1) + b := by omega
    rw [h1, Nat.add_div_right _ hb]
  · have h1 : n - b = 0 := by omega
    have h2 : n + b - 1 = (n - 1) + b := by omega
    rw [h1, h2, Nat.add_div_right _ hb, Nat.div_eq_of_lt (by omega), Nat.div_eq_of_lt (by omega)]

/-! ## The page-extraction loop -/

/-- Reading a contiguous in-bounds page range succeeds and returns the
corresponding slice of the document. -/
theorem getPages_range' {α : Type} (l : List α) :
    ∀ (n s : Nat), s + n ≤ l.length →
      getPages l (List.range' s n) = some ((l.drop s).take n) := by
  intro n
  induction n with
  | zero => intro s h; simp [getPages]
  | succ n ih =>
    intro s h
    have hs : s < l.length := by omega
    rw [List.range'_succ]
    simp only [getPages]
    rw [List.get?_eq_get hs, ih (s + 1) (by omega)]
    rw [List.drop_eq_getElem_cons hs, List.take_succ_cons]
    simp

/-! ## The splitter loop -/

/-- When every chunk start is below `total_pages`, the document has
`total_pages` pages available and enough filenames remain, the splitter
loop runs to completion and writes exactly the files `splitPure`
describes. -/
theorem splitWrite_done {α : Type} (rp : List α) (names : List String)
    (pps total : Nat) (dir : Path) (htotal : total ≤ rp.length) :
    ∀ (is : List Nat) (fi : Nat) (acc : List (PdfUnit α)),
      (∀ i ∈ is, i < total) → fi + is.length ≤ names.length →
      splitWrite rp names pps total dir is fi acc =
        .done (acc ++ splitPure rp names pps total dir is fi) := by
  intro is
  induction is with
  | nil => intro fi acc _ _; simp [splitWrite, splitPure]
  | cons i rest ih =>
    intro fi acc hmem hlen
    have hi : i < total := hmem i (by simp)
    have hmin1 : min (i + pps) total ≤ total := min_le_right _ _
    have hmin2 : i ≤ min (i + pps) total := le_min (by omega) (by omega)
    have hfi : fi < names.length := by simp at hlen; omega
    simp only [splitWrite]
    rw [getPages_range' rp (min (i + pps) total - i) i (by omega)]
    rw [List.get?_eq_get hfi]
    simp only []
    rw [ih (fi + 1) _ (fun j hj => hmem j (by simp [hj])) (by simp at hlen ⊢; omega)]
    simp [splitPure, List.getD_eq_getElem?_getD, List.getElem?_eq_getElem hfi]

/-- Length of the pure splitter output. -/
theorem splitPure_length {α : Type} (rp : List α) (names : List String)
    (pps total : Nat) (dir : Path) :
    ∀ (is : List Nat) (fi : Nat),
      (splitPure rp names pps total dir is fi).length = is.length := by
  intro is
  induction is with
  | nil => intro fi; simp [splitPure]
  | cons i rest ih => intro fi; simp [splitPure, ih]

/-- The `k`-th file the splitter writes. -/
theorem splitPure_getD {α : Type} (rp : List α) (names : List String)
    (pps total : Nat) (dir : Path) (d : PdfUnit α) :
    ∀ (is : List Nat) (fi k : Nat), k < is.length →
      (splitPure rp names pps total dir is fi).getD k d =
        { path := dir ++ [names.getD (fi + k) "" ++ ".pdf"],
          pages := (rp.drop (is.getD k 0)).take
            (min (is.getD k 0 + pps) total - is.getD k 0) } := by
  intro is
  induction is with
  | nil => intro fi k hk; simp at hk
  | cons i rest ih =>
    intro fi k hk
    cases k with
    | zero => simp [splitPure]
    | succ k =>
      have h2 : k < rest.length := by simp at hk; omega
      have h3 : fi + (k + 1) = (fi + 1) + k := by omega
      simp only [splitPure, List.getD_cons_succ, h3]
      exact ih (fi + 1) k h2

/-- The page lists of the splitter's units. -/
theorem splitPure_map_pages {α : Type} (rp : List α) (names : List String)
    (pps total : Nat) (dir : Path) :
    ∀ (is : List Nat) (fi : Nat),
      (splitPure rp names pps total dir is fi).map PdfUnit.pages =
        is.map (fun i => (rp.drop i).take (min (i + pps) total - i)) := by
  intro is
  induction is with
  | nil => intro fi; simp [splitPure]
  | cons i rest ih => intro fi; simp [splitPure, ih]

/-! ## The chunk-start index list -/

/-- Number of chunk starts. -/
theorem length_pyRange (total pps : Nat) :
    (pyRange 0 total pps).length = ceilDiv total pps := by
  simp [pyRange]

/-- Every chunk start is below `total`. -/
theorem mem_pyRange_lt {total pps : Nat} (hp : 0 < pps) :
    ∀ i ∈ pyRange 0 total pps, i < total := by
  intro i hi
  simp only [pyRange, List.mem_map, List.mem_range] at hi
  obtain ⟨k, hk, rfl⟩ := hi
  have : k * pps < total - 0 := lt_of_lt_ceilDiv hp hk
  omega

/-- The `k`-th chunk start is `k * pps`. -/
theorem pyRange_getD {total pps k : Nat} (hk : k < ceilDiv total pps) :
    (pyRange 0 total pps).getD k 0 = k * pps := by
  have h0 : ceilDiv (total - 0) pps = ceilDiv total pps := by simp
  simp [pyRange, h0, List.getD_eq_getElem?_getD, List.getElem?_range hk]

/-- Under the handler's validated preconditions, `split_to_pdf` completes
without an out-of-range index and returns the `splitPure` description. -/
theorem split_to_pdf_eq {α : Type} (rp : List α) (total pps : Nat)
    (names : List String) (dir : Path) (hp : 0 < pps) (hlen : rp.length = total)
    (hnames : names.length = ceilDiv total pps) :
    split_to_pdf rp total pps names dir =
      .done (splitPure rp names pps total dir (pyRange 0 total pps) 0) := by
  unfold split_to_pdf
  rw [splitWrite_done rp names pps total dir (by omega) (pyRange 0 total pps) 0 []
    (mem_pyRange_lt hp) (by simp [length_pyRange, hnames])]
  simp

/-- Concatenating the `pps`-sized chunks of a list, in order, gives the
list back. -/
theorem chunks_join {α : Type} {pps : Nat} (hp : 0 < pps) :
    ∀ (l : List α),
      ((List.range (ceilDiv l.length pps)).map
        (fun k => (l.drop (k * pps)).take pps)).flatten = l := by
  suffices H : ∀ (n : Nat) (l : List α), l.length = n →
      ((List.range (ceilDiv l.length pps)).map
        (fun k => (l.drop (k * pps)).take pps)).flatten = l by
    intro l; exact H l.length l rfl
  intro n
  induction n using Nat.strong_induction_on with
  | _ n ih =>
    intro l hl
    rcases Nat.eq_zero_or_pos n with h0 | h0
    · have hnil : l = [] := List.length_eq_zero.mp (by omega)
      subst hnil
      have hc : ceilDiv 0 pps = 0 := by
        unfold ceilDiv; exact Nat.div_eq_of_lt (by omega)
      simp [hc]
    · have hlen2 : (List.drop pps l).length = l.length - pps := List.length_drop pps l
      have hstep : ceilDiv l.length pps = ceilDiv (List.drop pps l).length pps + 1 := by
        rw [hlen2, ceilDiv_step hp (by omega)]
      have ihd := ih (n - pps) (by omega) (List.drop pps l) (by rw [hlen2, hl])
      rw [hstep, List.range_succ_eq_map]
      simp only [List.map_cons, List.flatten_cons, List.map_map]
      have hfun : ((fun k => (l.drop (k * pps)).take pps) ∘ Nat.succ) =
          (fun k => ((l.drop pps).drop (k * pps)).take pps) := by
        funext k
        simp only [Function.comp_apply, List.drop_drop]
        rw [Nat.succ_mul, Nat.add_comm (k * pps) pps, Nat.add_comm pps (k * pps)]
      rw [hfun, ihd]
      simp [List.take_append_drop]

/-! ## The rasterizer loop -/

/-- When at least `s + n` images exist, the write loop over indices
`[s, s+n)` completes and writes one file per index. -/
theorem jpgWrite_range'_done {α : Type} (images : List α) (names : List String)
    (dir : Path) (w : Bool) (d : α) :
    ∀ (n s : Nat) (acc : List (Path × α)), s + n ≤ images.length →
      jpgWrite images names dir w (List.range' s n) acc =
        .done w (acc ++ (List.range' s n).map
          (fun i => (dir ++ [names.getD i "" ++ ".jpg"], images.getD i d))) := by
  intro n
  induction n with
  | zero => intro s acc h; simp [jpgWrite]
  | succ n ih =>
    intro s acc h
    have hs : s < images.length := by omega
    rw [List.range'_succ]
    simp only [jpgWrite]
    rw [List.get?_eq_get hs]
    simp only []
    rw [ih (s + 1) _ (by omega)]
    simp [List.getD_eq_getElem?_getD, List.getElem?_eq_getElem hs, List.append_assoc]

/-- When fewer than `s + n` images exist, the write loop over indices
`[s, s+n)` writes the files for the in-range indices and then escapes
with `IndexError`. -/
theorem jpgWrite_range'_err {α : Type} (images : List α) (names : List String)
    (dir : Path) (w : Bool) (d : α) :
    ∀ (n s : Nat) (acc : List (Path × α)),
      s ≤ images.length → images.length < s + n →
      jpgWrite images names dir w (List.range' s n) acc =
        .indexError w (acc ++ (List.range' s (images.length - s)).map
          (fun i => (dir ++ [names.getD i "" ++ ".jpg"], images.getD i d))) := by
  intro n
  induction n with
  | zero => intro s acc h1 h2; omega
  | succ n ih =>
    intro s acc h1 h2
    rw [List.range'_succ]
    simp only [jpgWrite]
    rcases eq_or_lt_of_le h1 with heq | hlt
    · have hnone : images.get? s = none := List.get?_eq_none.mpr (by omega)
      rw [hnone]
      simp [← heq]
    · have hs : s < images.length := hlt
      rw [List.get?_eq_get hs]
      simp only []
      rw [ih (s + 1) _ (by omega) (by omega)]
      have hr : List.range' s (images.length - s) =
          s :: List.range' (s + 1) (images.length - s - 1) := by
        have he : images.length - s = (images.length - s - 1) + 1 := by omega
        rw [he, List.range'_succ]
        simp
      rw [hr]
      have he2 : images.length - (s + 1) = images.length - s - 1 := by omega
      rw [he2]
      simp [List.getD_eq_getElem?_getD, List.getElem?_eq_getElem hs, List.append_assoc]

/-! ## Packaging -/

/-- The archive loop is a per-file map: each file appears under its base
name, in input order. -/
theorem packZip_eq (files : List Path) :
    packZip files = files.map (fun file => (basename file, file)) := by
  suffices H : ∀ (fs : List Path) (init : List (String × Path)),
      fs.foldl (fun zipf file => zipf ++ [(basename file, file)]) init =
        init ++ fs.map (fun file => (basename file, file)) by
    simpa [packZip] using H files []
  intro fs
  induction fs with
  | nil => intro init; simp
  | cons f rest ih => intro init; simp [ih, List.append_assoc]

/-- Any archive the packaging stage creates is non-empty. -/
theorem packStage_archive {files : List Path} {ms : List (String × Path)}
    (h : (packStage files).archive = some ms) : ms ≠ [] := by
  unfold packStage at h
  split at h
  · simp at h
  · next hne =>
    simp only [Option.some.injEq] at h
    subst h
    rw [packZip_eq]
    simp only [ne_eq, List.map_eq_nil]
    intro hc
    subst hc
    simp at hne

/-- Filtering after mapping is mapping after filtering on the composed
predicate. -/
theorem filter_of_map {α β : Type} (f : α → β) (p : β → Bool) :
    ∀ l : List α, (l.map f).filter p = (l.filter (fun a => p (f a))).map f := by
  intro l
  induction l with
  | nil => simp
  | cons a rest ih =>
    simp only [List.map_cons, List.filter_cons]
    cases h : p (f a) <;> simp [h, ih]

/-- With at least `min total_pages (len output_filenames)` images
available, `convert_to_jpg` returns normally with one file per index below
that minimum. -/
theorem convert_to_jpg_done {α : Type} (d : α) (images : List α) (total_pages : Nat)
    (output_filenames : List String) (output_dir : Path)
    (h : min total_pages output_filenames.length ≤ images.length) :
    convert_to_jpg true images total_pages output_filenames output_dir =
      .done (decide (images.length ≠ total_pages))
        ((List.range (min total_pages output_filenames.length)).map
          (fun i => (output_dir ++ [output_filenames.getD i "" ++ ".jpg"],
            images.getD i d))) := by
  unfold convert_to_jpg
  simp only [List.range_eq_range']
  rw [jpgWrite_range'_done images output_filenames output_dir _ d _ 0 [] (by omega)]
  simp

/-- With fewer images than `min total_pages (len output_filenames)`,
`convert_to_jpg` writes the files for the existing images and then escapes
with `IndexError`. -/
theorem convert_to_jpg_err {α : Type} (d : α) (images : List α) (total_pages : Nat)
    (output_filenames : List String) (output_dir : Path)
    (h : images.length < min total_pages output_filenames.length) :
    convert_to_jpg true images total_pages output_filenames output_dir =
      .indexError (decide (images.length ≠ total_pages))
        ((List.range images.length).map
          (fun i => (output_dir ++ [output_filenames.getD i "" ++ ".jpg"],
            images.getD i d))) := by
  unfold convert_to_jpg
  simp only [List.range_eq_range']
  rw [jpgWrite_range'_err images output_filenames output_dir _ d _ 0 [] (by omega) (by omega)]
  simp

/-! ## Claims -/

/-- Claim C2, counterexample: with 2 pages, 2 names and only 1 rendered
image, `min(totalPages, len(names), images_produced) = 1`, but instead of
producing that one output and returning, `convert_to_jpg` raises
`IndexError` (after writing the first file), so the call aborts rather
than continuing best-effort. -/
theorem C2_counterexample :
    convert_to_jpg true ([9] : List Nat) 2 ["x", "y"] ["o"] =
      .indexError true [(["o", "x.jpg"], 9)] ∧
    (convert_to_jpg true ([9] : List Nat) 2 ["x", "y"] ["o"]).returnedFiles = none := by
  constructor <;> decide

/-- Claim C2 (amended): when the renderer produces a number of images
different from `total_pages`, the warning is emitted; if at least
`min(totalPages, len(names))` images exist the loop proceeds best-effort
and produces exactly that many outputs (which then equals
`min(totalPages, len(names), images_produced)`); but if fewer images exist
the call aborts with `IndexError` after writing one file per existing
image, rather than proceeding. -/
theorem C2_degraded_continuation {α : Type} (d : α) (images : List α)
    (total_pages : Nat) (output_filenames : List String) (output_dir : Path)
    (hcount : images.length ≠ total_pages) :
    (min total_pages output_filenames.length ≤ images.length →
      convert_to_jpg true images total_pages output_filenames output_dir =
        .done true ((List.range (min total_pages output_filenames.length)).map
          (fun i => (output_dir ++ [output_filenames.getD i "" ++ ".jpg"],
            images.getD i d)))) ∧
    (images.length < min total_pages output_filenames.length →
      convert_to_jpg true images total_pages output_filenames output_dir =
        .indexError true ((List.range images.length).map
          (fun i => (output_dir ++ [output_filenames.getD i "" ++ ".jpg"],
            images.getD i d)))) := by
  have hw : decide (images.length ≠ total_pages) = true := decide_eq_true hcount
  constructor
  · intro h
    have h2 := convert_to_jpg_done d images total_pages output_filenames output_dir h
    rwa [hw] at h2
  · intro h
    have h2 := convert_to_jpg_err d images total_pages output_filenames output_dir h
    rwa [hw] at h2

/-- Claim C2, witness: a concrete run of the amended statement's abort
branch. -/
theorem C2_witness :
    convert_to_jpg true ([9] : List Nat) 3 ["x", "y"] ["o"] =
      .indexError true [(["o", "x.jpg"], 9)] := by
  have h := (C2_degraded_continuation 0 ([9] : List Nat) 3 ["x", "y"] ["o"]
    (by decide)).2 (by decide)
  exact h.trans (by decide)

/-- Claim C3: under the validated plan, unit `k` is built from exactly the
contiguous source pages `[k*chunkSize, min((k+1)*chunkSize, totalPages))`,
in original order, and is written to `outDir/{names[k]}.pdf`; in
particular a 5-page document with `chunkSize = 2` and names
`["a", "b", "c"]` yields `a.pdf` with pages 1–2, `b.pdf` with pages 3–4
and `c.pdf` with page 5. -/
theorem C3_unit_page_ranges {α : Type} (reader_pages : List α)
    (total_pages pages_per_split : Nat) (output_filenames : List String)
    (output_dir : Path) (d : PdfUnit α)
    (htotal : 0 < total_pages) (hpps : 0 < pages_per_split)
    (hlen : reader_pages.length = total_pages)
    (hnames : output_filenames.length = ceilDiv total_pages pages_per_split) :
    (∃ units,
      split_to_pdf reader_pages total_pages pages_per_split output_filenames
        output_dir = .done units ∧
      units.length = output_filenames.length ∧
      ∀ k, k < output_filenames.length →
        units.getD k d =
          { path := output_dir ++ [output_filenames.getD k "" ++ ".pdf"],
            pages := (reader_pages.drop (k * pages_per_split)).take
              (min ((k + 1) * pages_per_split) total_pages - k * pages_per_split) }) ∧
    split_to_pdf ([10, 20, 30, 40, 50] : List Nat) 5 2 ["a", "b", "c"] ["out"] =
      .done [ { path := ["out", "a.pdf"], pages := [10, 20] },
              { path := ["out", "b.pdf"], pages := [30, 40] },
              { path := ["out", "c.pdf"], pages := [50] } ] := by
  constructor
  · refine ⟨_, split_to_pdf_eq reader_pages total_pages pages_per_split
      output_filenames output_dir hpps hlen hnames, ?_, ?_⟩
    · rw [splitPure_length, length_pyRange, hnames]
    · intro k hk
      have hcd : k < ceilDiv total_pages pages_per_split := by omega
      rw [splitPure_getD reader_pages output_filenames pages_per_split total_pages
        output_dir d (pyRange 0 total_pages pages_per_split) 0 k
        (by rwa [length_pyRange])]
      rw [pyRange_getD hcd, Nat.succ_mul]
      simp
  · decide

/-- Claim C3, witness: the general part applied to the concrete 5-page
scenario, checking the middle unit. -/
theorem C3_witness :
    ∃ units,
      split_to_pdf ([10, 20, 30, 40, 50] : List Nat) 5 2 ["a", "b", "c"] ["out"] =
        .done units ∧
      units.length = 3 ∧
      units.getD 1 { path := [], pages := [] } =
        { path := ["out", "b.pdf"], pages := [30, 40] } := by
  obtain ⟨⟨units, h1, h2, h3⟩, _⟩ := C3_unit_page_ranges ([10, 20, 30, 40, 50] : List Nat)
    5 2 ["a", "b", "c"] ["out"] { path := [], pages := [] }
    (by decide) (by decide) (by decide) (by decide)
  refine ⟨units, h1, by simpa using h2, (h3 1 (by decide)).trans (by decide)⟩

/-- Claim C4: splitting then concatenating the page lists of all units, in
unit order, reproduces the original page sequence exactly. -/
theorem C4_concat_reproduces {α : Type} (reader_pages : List α)
    (total_pages pages_per_split : Nat) (output_filenames : List String)
    (output_dir : Path)
    (htotal : 0 < total_pages) (hpps : 0 < pages_per_split)
    (hlen : reader_pages.length = total_pages)
    (hnames : output_filenames.length = ceilDiv total_pages pages_per_split) :
    ∃ units,
      split_to_pdf reader_pages total_pages pages_per_split output_filenames
        output_dir = .done units ∧
      (units.map PdfUnit.pages).flatten = reader_pages := by
  refine ⟨_, split_to_pdf_eq reader_pages total_pages pages_per_split
    output_filenames output_dir hpps hlen hnames, ?_⟩
  rw [splitPure_map_pages]
  simp only [pyRange, List.map_map]
  have hfun : ∀ k ∈ List.range (ceilDiv (total_pages - 0) pages_per_split),
      ((fun i => (reader_pages.drop i).take
          (min (i + pages_per_split) total_pages - i)) ∘
        (fun k => 0 + k * pages_per_split)) k =
      (reader_pages.drop (k * pages_per_split)).take pages_per_split := by
    intro k hk
    simp only [Function.comp_apply, Nat.zero_add]
    have hk2 : k * pages_per_split < total_pages := by
      rw [List.mem_range, Nat.sub_zero] at hk
      exact lt_of_lt_ceilDiv hpps hk
    rcases le_or_lt (k * pages_per_split + pages_per_split) total_pages with hle | hgt
    · rw [min_eq_left hle]
      congr 1
      omega
    · rw [min_eq_right (by omega)]
      have hlen2 : (reader_pages.drop (k * pages_per_split)).length =
          total_pages - k * pages_per_split := by
        rw [List.length_drop, hlen]
      rw [List.take_of_length_le (by omega), List.take_of_length_le (by omega)]
  rw [List.map_congr_left hfun, Nat.sub_zero, ← hlen]
  exact chunks_join hpps reader_pages

/-- Claim C4, witness: a concrete 3-page split with chunk size 2. -/
theorem C4_witness :
    ∃ units,
      split_to_pdf ([1, 2, 3] : List Nat) 3 2 ["a", "b"] ["o"] = .done units ∧
      (units.map PdfUnit.pages).flatten = [1, 2, 3] :=
  C4_concat_reproduces ([1, 2, 3] : List Nat) 3 2 ["a", "b"] ["o"]
    (by decide) (by decide) (by decide) (by decide)

/-- Claim C6: with the rendering dependency missing, `convert_to_jpg`
fails closed — it reports the condition through the import-guard error
branch and returns the empty file set instead of crashing. -/
theorem C6_unavailable_fails_closed {α : Type} (images : List α) (total_pages : Nat)
    (output_filenames : List String) (output_dir : Path) :
    convert_to_jpg false images total_pages output_filenames output_dir =
      .unavailable ∧
    (convert_to_jpg false images total_pages output_filenames
      output_dir).returnedFiles = some [] :=
  ⟨rfl, rfl⟩

/-- Claim C7: the packager adds each file under its base name only and in
exactly the order given, so the archive's member list equals the base
names of the input paths in input order. -/
theorem C7_archive_member_list (files : List Path) (hne : files ≠ []) :
    packZip files = files.map (fun file => (basename file, file)) ∧
    (packZip files).map Prod.fst = files.map basename := by
  refine ⟨packZip_eq files, ?_⟩
  rw [packZip_eq, List.map_map]
  rfl

/-- Claim C7, witness: two concrete generated paths. -/
theorem C7_witness :
    packZip [["t", "output", "a.pdf"], ["t", "output", "b.pdf"]] =
      [("a.pdf", ["t", "output", "a.pdf"]), ("b.pdf", ["t", "output", "b.pdf"])] := by
  have h := (C7_archive_member_list
    [["t", "output", "a.pdf"], ["t", "output", "b.pdf"]] (by decide)).1
  exact h.trans (by decide)

/-- Claim C8, counterexample: on the text "a \nb" the non-blank lines are
`["a ", "b"]`, but the name list the code passes on is the trimmed
`["a", "b"]` — the names are not the remaining lines themselves. -/
theorem C8_counterexample :
    parse_names "a \nb" = ["a", "b"] ∧
    parse_names_spec_words "a \nb" = ["a ", "b"] ∧
    parse_names "a \nb" ≠ parse_names_spec_words "a \nb" := by
  refine ⟨by decide, by decide, by decide⟩

/-- Claim C8 (amended): the name list is obtained by splitting the text on
line breaks, discarding blank (whitespace-only) lines, and stripping the
remaining lines of leading and trailing whitespace, preserving their
order; every resulting name is a non-empty string. -/
theorem C8_parse_names_trimmed (text : String) :
    parse_names text = (parse_names_spec_words text).map pyStrip ∧
    ∀ name ∈ parse_names text, name ≠ "" := by
  constructor
  · unfold parse_names parse_names_spec_words
    rw [filter_of_map]
  · intro name hmem
    unfold parse_names at hmem
    rw [List.mem_filter] at hmem
    simpa using hmem.2

/-- Claim C8, witness: a concrete text with a blank line and padding. -/
theorem C8_witness :
    (("x" : String) ≠ "") ∧
    parse_names "x\ny" = (parse_names_spec_words "x\ny").map pyStrip :=
  ⟨(C8_parse_names_trimmed "x\ny").2 "x" (by decide), (C8_parse_names_trimmed "x\ny").1⟩

/-- Claim C9: under the precondition
`len(output_filenames) = ceil(total_pages / pages_per_split)` (with
positive page count and chunk size, and the handler's invariant
`total_pages = len(reader.pages)`), every index `split_to_pdf` uses is in
bounds, so the run completes without an `IndexError`. -/
theorem C9_indices_in_bounds {α : Type} (reader_pages : List α)
    (total_pages pages_per_split : Nat) (output_filenames : List String)
    (output_dir : Path)
    (htotal : 0 < total_pages) (hpps : 0 < pages_per_split)
    (hlen : reader_pages.length = total_pages)
    (hnames : output_filenames.length = ceilDiv total_pages pages_per_split) :
    ∃ units,
      split_to_pdf reader_pages total_pages pages_per_split output_filenames
        output_dir = .done units :=
  ⟨_, split_to_pdf_eq reader_pages total_pages pages_per_split output_filenames
    output_dir hpps hlen hnames⟩

/-- Claim C9, witness: a concrete in-bounds run. -/
theorem C9_witness :
    ∃ units, split_to_pdf ([5, 6, 7] : List Nat) 3 1 ["a", "b", "c"] ["o"] =
      .done units :=
  C9_indices_in_bounds ([5, 6, 7] : List Nat) 3 1 ["a", "b", "c"] ["o"]
    (by decide) (by decide) (by decide) (by decide)

/-- Claim C10: with the renderer available and at least
`min(total_pages, len(output_filenames))` images produced,
`convert_to_jpg` returns exactly that many file paths, path `i` being
`outDir/{names[i]}.jpg` saved from image `i`, in page order; images beyond
that minimum are silently ignored. -/
theorem C10_jpg_output_files {α : Type} (d : α) (images : List α)
    (total_pages : Nat) (output_filenames : List String) (output_dir : Path)
    (h : min total_pages output_filenames.length ≤ images.length) :
    convert_to_jpg true images total_pages output_filenames output_dir =
      .done (decide (images.length ≠ total_pages))
        ((List.range (min total_pages output_filenames.length)).map
          (fun i => (output_dir ++ [output_filenames.getD i "" ++ ".jpg"],
            images.getD i d))) :=
  convert_to_jpg_done d images total_pages output_filenames output_dir h

/-- Claim C10, witness: two pages, two names, three rendered images — the
third image is ignored. -/
theorem C10_witness :
    convert_to_jpg true ([7, 8, 11] : List Nat) 2 ["x", "y"] ["o"] =
      .done true [(["o", "x.jpg"], 7), (["o", "y.jpg"], 8)] := by
  have h := C10_jpg_output_files 0 ([7, 8, 11] : List Nat) 2 ["x", "y"] ["o"] (by decide)
  exact h.trans (by decide)

/-- Claim C1, counterexample: with `totalPages = 1`, `chunkSize = 1` and
the empty name list the counts mismatch (expected 1, actual 0), but the
handler does not report a name-count mismatch — it fails earlier with the
empty-names error, which carries no counts. -/
theorem C1_counterexample :
    handle_run .pdf ([0] : List Nat) 1 [] true [] ["t"] =
      { reports := [.emptyNames], written := [], archive := none } ∧
    Report.nameCountMismatch 1 0 ∉
      (handle_run .pdf ([0] : List Nat) 1 [] true [] ["t"]).reports := by
  constructor <;> decide

/-- Claim C1 (amended): for every non-empty name list whose length differs
from `ceil(totalPages / chunkSize)`, the request fails with the
name-count-mismatch error carrying the correct expected and actual counts,
and no output file is written (nor any archive produced); the empty name
list instead fails with the empty-names error, also before anything is
written. -/
theorem C1_name_count_guard {α : Type} (output_format : OutputFormat)
    (reader_pages : List α) (pps_input : Nat) (output_filenames : List String)
    (render_available : Bool) (render_images : List α) (temp_dir : Path)
    (hpages : 0 < reader_pages.length) (hpps : 0 < pps_input) :
    (output_filenames ≠ [] →
      ceilDiv reader_pages.length (effectivePps output_format pps_input) ≠
        output_filenames.length →
      handle_run output_format reader_pages pps_input output_filenames
          render_available render_images temp_dir =
        { reports := [.nameCountMismatch
            (ceilDiv reader_pages.length (effectivePps output_format pps_input))
            output_filenames.length],
          written := [], archive := none }) ∧
    (output_filenames = [] →
      handle_run output_format reader_pages pps_input output_filenames
          render_available render_images temp_dir =
        { reports := [.emptyNames], written := [], archive := none }) := by
  constructor
  · intro hne hcount
    have h1 : output_filenames.isEmpty = false := by
      simpa [List.isEmpty_iff] using hne
    simp [handle_run, h1, hcount]
  · intro he
    subst he
    simp [handle_run]

/-- Claim C1, witness: a 3-page document with chunk size 2 and a single
name — expected 2, actual 1. -/
theorem C1_witness :
    handle_run .pdf ([0, 1, 2] : List Nat) 2 ["a"] true [] ["t"] =
      { reports := [.nameCountMismatch 2 1], written := [], archive := none } := by
  have h := (C1_name_count_guard .pdf ([0, 1, 2] : List Nat) 2 ["a"] true [] ["t"]
    (by decide) (by decide)).1 (by decide) (by decide)
  exact h.trans (by decide)

/-- Claim C5, counterexample: a validated jpg-mode request with the
renderer missing ends with an empty generated-file set, yet no packaging
error of any kind is reported — the only report is the
rendering-unavailable error, no archive is produced, and the request ends
silently at the packaging stage. -/
theorem C5_counterexample :
    (handle_run .jpg ([0] : List Nat) 1 ["x"] false [] ["t"]).archive = none ∧
    (handle_run .jpg ([0] : List Nat) 1 ["x"] false [] ["t"]).reports =
      [.renderingUnavailable] ∧
    (handle_run .jpg ([0] : List Nat) 1 ["x"] false [] ["t"]).written = [] := by
  refine ⟨by decide, by decide, by decide⟩

/-- Claim C5 (amended): an empty generated-file list does not terminate
the request with a `PackagingError` — the handler skips packaging
entirely: on the one validated path that yields an empty set (rendering
unavailable) the run ends with only the rendering report and no archive;
and any archive the handler does create is non-empty, so no empty archive
is ever produced. -/
theorem C5_empty_set_skips_packaging :
    (∀ {α : Type} (reader_pages : List α) (pps_input : Nat)
        (output_filenames : List String) (render_images : List α) (temp_dir : Path),
      output_filenames ≠ [] →
      reader_pages.length = output_filenames.length →
      handle_run .jpg reader_pages pps_input output_filenames false render_images
          temp_dir =
        { reports := [.renderingUnavailable], written := [], archive := none }) ∧
    (∀ (output_format : OutputFormat) {α : Type} (reader_pages : List α)
        (pps_input : Nat) (output_filenames : List String) (render_available : Bool)
        (render_images : List α) (temp_dir : Path) (members : List (String × Path)),
      (handle_run output_format reader_pages pps_input output_filenames
        render_available render_images temp_dir).archive = some members →
      members ≠ []) := by
  constructor
  · intro α rp pps names ri td hne hmatch
    have h1 : names.isEmpty = false := by simpa [List.isEmpty_iff] using hne
    have h2 : ceilDiv rp.length (effectivePps .jpg pps) = names.length := by
      simp [effectivePps, ceilDiv, hmatch]
    simp [handle_run, h1, h2, convert_to_jpg]
  · intro fmt α rp pps names ra ri td ms h
    simp only [handle_run] at h
    split at h
    · simp at h
    · split at h
      · simp at h
      · split at h
        · split at h
          · exact packStage_archive h
          · simp at h
        · split at h
          · simp at h
          · exact packStage_archive h
          · simp at h

/-- Claim C5, witness: the silent-skip branch at a concrete unavailable
run, and a concrete non-empty archive. -/
theorem C5_witness :
    handle_run .jpg ([0] : List Nat) 5 ["x"] false [] ["t"] =
      { reports := [.renderingUnavailable], written := [], archive := none } ∧
    ([("a.pdf", ["t", "output", "a.pdf"])] : List (String × Path)) ≠ [] := by
  constructor
  · exact C5_empty_set_skips_packaging.1 ([0] : List Nat) 5 ["x"] [] ["t"]
      (by decide) (by decide)
  · exact C5_empty_set_skips_packaging.2 .pdf ([0] : List Nat) 1 ["a"] true [] ["t"]
      [("a.pdf", ["t", "output", "a.pdf"])] (by decide)

end SplitPdf
